import Mathlib

/-!
Shallow embedding of the Translation Resolution Engine of the portfolio
repository (source: src/contexts/TranslationContext.jsx), together with
theorems settling the specification claims about it.

JavaScript runtime values are modelled by the inductive type `JsVal`.
Objects are association lists with distinct keys (catalogs come from JSON).
Function values reachable through the prototype chain (`Object.prototype`
and `Array.prototype` members such as `toString`, `hasOwnProperty`, `map`)
are modelled by the constructor `vfn`; none of them is a string value, which
is all the resolution algorithm can observe about them.  String primitives
of the JavaScript runtime (`split`, `trim`, `toLowerCase`, `startsWith`)
are modelled over the character list of the string.  Console logging and
the React error flag are side effects with no bearing on returned values or
committed state and are not part of the embedding; the persistence write is
modelled explicitly because one claim is about it.
-/

/-- JavaScript values as relevant to the translation engine. -/
inductive JsVal where
  | vnull
  | vbool (b : Bool)
  | vnum (n : Int)
  | vstr (s : String)
  | vfn
  | vobj (fields : List (String × JsVal))
  | varr (elems : List JsVal)

/-- JavaScript truthiness of a value. -/
def truthy : JsVal → Bool
  | JsVal.vnull => false
  | JsVal.vbool b => b
  | JsVal.vnum n => n != 0
  | JsVal.vstr s => s != ""
  | JsVal.vfn => true
  | JsVal.vobj _ => true
  | JsVal.varr _ => true

/-- Whether `typeof v === 'object'` holds (true for null, objects, arrays). -/
def isObjType : JsVal → Bool
  | JsVal.vnull => true
  | JsVal.vobj _ => true
  | JsVal.varr _ => true
  | _ => false

/-- Whether `typeof v === 'string'` holds. -/
def isStr : JsVal → Bool
  | JsVal.vstr _ => true
  | _ => false

mutual
/-- The `String(v)` coercion. -/
def jsToString : JsVal → String
  | JsVal.vnull => "null"
  | JsVal.vbool b => cond b "true" "false"
  | JsVal.vnum n => toString n
  | JsVal.vstr s => s
  | JsVal.vfn => "function"
  | JsVal.vobj _ => "[object Object]"
  | JsVal.varr xs => jsToStringList xs

/-- Array stringification: elements joined by commas, null elements empty. -/
def jsToStringList : List JsVal → String
  | [] => ""
  | [JsVal.vnull] => ""
  | [v] => jsToString v
  | JsVal.vnull :: rest => "," ++ jsToStringList rest
  | v :: rest => jsToString v ++ "," ++ jsToStringList rest
end

/-- `a || b` on values. -/
def jsOr (a b : JsVal) : JsVal := if truthy a then a else b

/-- `key.split('.')`, accumulating the current segment. -/
def splitDotAux : List Char → List Char → List String
  | [], acc => [String.mk acc.reverse]
  | c :: rest, acc =>
      if c = '.' then String.mk acc.reverse :: splitDotAux rest []
      else splitDotAux rest (c :: acc)

/-- `key.split('.')` on a string (`"".split('.')` is `[""]`). -/
def splitDot (s : String) : List String := splitDotAux s.data []

/-- `s.trim()`: strip whitespace from both ends. -/
def jsTrim (s : String) : String :=
  String.mk (((s.data.dropWhile Char.isWhitespace).reverse.dropWhile
      Char.isWhitespace).reverse)

/-- `s.toLowerCase()`. -/
def jsToLower (s : String) : String := String.mk (s.data.map Char.toLower)

/-- `s.startsWith(p)`. -/
def strStartsWith (s p : String) : Bool := p.data.isPrefixOf s.data

/-- Function-valued own members of `Object.prototype`, visible to `in`. -/
def objProtoKeys : List String :=
  ["constructor", "hasOwnProperty", "isPrototypeOf", "propertyIsEnumerable",
   "toLocaleString", "toString", "valueOf"]

/-- Function-valued members of `Array.prototype`, visible to `in` on arrays. -/
def arrProtoKeys : List String :=
  ["at", "concat", "copyWithin", "entries", "every", "fill", "filter", "find",
   "findIndex", "flat", "flatMap", "forEach", "includes", "indexOf", "join",
   "keys", "lastIndexOf", "map", "pop", "push", "reduce", "reduceRight",
   "reverse", "shift", "slice", "some", "sort", "splice", "unshift", "values"]

/-- Element of an array at a decimal string index, when in range. -/
def arrIndex (xs : List JsVal) (k : String) : Option JsVal :=
  (List.range xs.length).findSome? fun i => if toString i = k then xs[i]? else none

/-- The JavaScript `k in v` test (own properties and the prototype chain). -/
def jsIn (k : String) : JsVal → Bool
  | JsVal.vobj fields => (fields.lookup k).isSome || objProtoKeys.contains k
  | JsVal.varr xs =>
      (arrIndex xs k).isSome || k == "length" || arrProtoKeys.contains k
        || objProtoKeys.contains k
  | _ => false

/-- Property access `v[k]`; own properties shadow inherited ones. -/
def jsGet (k : String) : JsVal → JsVal
  | JsVal.vobj fields =>
      (match fields.lookup k with
       | some v => v
       | none => if objProtoKeys.contains k then JsVal.vfn else JsVal.vnull)
  | JsVal.varr xs =>
      (match arrIndex xs k with
       | some v => v
       | none => if k == "length" then JsVal.vnum xs.length else JsVal.vfn)
  | _ => JsVal.vnull

/-- `Object.keys(v)`: own enumerable keys (indices for arrays and strings). -/
def jsKeys : JsVal → List String
  | JsVal.vobj fields => fields.map Prod.fst
  | JsVal.varr xs => (List.range xs.length).map toString
  | JsVal.vstr s => (List.range s.data.length).map toString
  | _ => []

/-- The traversal loop of `t`: walk the catalog segment by segment; the walk
yields null the moment the current node is falsy, not of object type, or the
segment is not `in` it (the source's `value = null; break`). -/
def navigate : JsVal → List String → JsVal
  | v, [] => v
  | v, k :: rest =>
      if truthy v && isObjType v && jsIn k v then navigate (jsGet k v) rest
      else JsVal.vnull

/-- The hit test applied after traversal:
`typeof value === 'string' && value.trim() !== ''`. -/
def strHit : JsVal → Option String
  | JsVal.vstr s => if jsTrim s = "" then none else some s
  | _ => none

/-- `String(key || '')`, the early return of `t` for invalid keys. -/
def coerceKey (key : JsVal) : String := jsToString (jsOr key (JsVal.vstr ""))

/-- The translation function `t` of TranslationContext.jsx, as a function of
the two catalogs held in provider state, the current language, and the key. -/
def t (translations fallbackTranslations : JsVal) (currentLanguage : String)
    (key : JsVal) : String :=
  match key with
  | JsVal.vstr s =>
      if s = "" then coerceKey (JsVal.vstr s)
      else
        let keys := splitDot s
        match strHit (navigate translations keys) with
        | some hit => hit
        | none =>
            if currentLanguage != "en" && truthy fallbackTranslations
                && decide (0 < (jsKeys fallbackTranslations).length) then
              match strHit (navigate fallbackTranslations keys) with
              | some hit => hit
              | none => s
            else s
  | k => coerceKey k

/-- The `/^[a-z]{2}$/` test on a string. -/
def isTwoLower (s : String) : Bool :=
  s.data.length == 2 && s.data.all fun c => 'a' ≤ c && c ≤ 'z'

/-- The language-parameter validation used by `loadTranslations` and
`setLanguage`: `language && typeof language === 'string' && regex`. -/
def isValidLangCode : JsVal → Bool
  | JsVal.vstr s => s != "" && isTwoLower s
  | _ => false

/-- Underlying string of a language value (callers only use it after
`isValidLangCode`, which forces the string case). -/
def langStr : JsVal → String
  | JsVal.vstr s => s
  | _ => ""

/-- The shape validation applied to a loaded module value:
`translations && typeof translations === 'object'` (arrays pass; null and
every primitive fail). -/
def isCatalogShaped (v : JsVal) : Bool := truthy v && isObjType v

/-- `loadFallbackTranslations`: import the English catalog, validate its
shape, and recover every failure as the empty catalog.  `files` models the
dynamic `import()` of `../translations/LANG.json`: `none` is an import that
throws, `some v` an import that resolves to the value `v`. -/
def loadFallbackTranslations (files : String → Option JsVal) : JsVal :=
  match files "en" with
  | some v => if isCatalogShaped v then v else JsVal.vobj []
  | none => JsVal.vobj []

/-- `loadTranslations`: validate the language code (coercing invalid input to
`'en'`), import that catalog, and on an import failure or a value failing the
shape check fall back — for a non-English request to the English catalog (the
source inlines the body of `loadFallbackTranslations` in its catch block),
for an English request to the empty catalog. -/
def loadTranslations (files : String → Option JsVal) (language : JsVal) : JsVal :=
  let lang := if isValidLangCode language then langStr language else "en"
  match files lang with
  | some v =>
      if isCatalogShaped v then v
      else if lang != "en" then loadFallbackTranslations files
      else JsVal.vobj []
  | none =>
      if lang != "en" then loadFallbackTranslations files
      else JsVal.vobj []

/-- The provider state committed through `setCurrentLanguage`,
`setTranslations` and `setFallbackTranslations`. -/
structure EngineState where
  currentLanguage : String
  translations : JsVal
  fallbackTranslations : JsVal

/-- `setStoredLanguage`: `localStorage.setItem` wrapped in try/catch, true on
success and false on a storage failure.  `storageOk` models whether the
underlying write succeeds. -/
def setStoredLanguage (storageOk : Bool) (_language : String) : Bool := storageOk

/-- `setLanguage`: validate the code, load its catalog, and commit language
and catalog together only when the loaded catalog is truthy with at least one
own key; on success attempt the advisory persistence write.  The second
component records the write invocation (the code passed to it), `none` when
no write was attempted. -/
def setLanguage (files : String → Option JsVal) (storageOk : Bool)
    (st : EngineState) (language : JsVal) : EngineState × Option String :=
  if isValidLangCode language = false then (st, none)
  else
    let translationData := loadTranslations files language
    if truthy translationData && decide (0 < (jsKeys translationData).length) then
      let st' := { st with currentLanguage := langStr language,
                           translations := translationData }
      let _storageSuccess := setStoredLanguage storageOk (langStr language)
      (st', some (langStr language))
    else (st, none)

/-- Browser-language detection inside `initializeLanguage`: the signal is the
first defined of `navigator.language`/`userLanguage`/`browserLanguage`
(`none` when all are missing or reading them throws); a truthy string signal
yields `'es'` exactly when its lower-casing starts with `"es"`. -/
def detectBrowserLanguage (navLang : Option String) : String :=
  match navLang with
  | some s => if s != "" && strStartsWith (jsToLower s) "es" then "es" else "en"
  | none => "en"

/-- Result of initialization: the committed provider state, plus whether the
stored preference was erased (`localStorage.removeItem`). -/
structure InitResult where
  state : EngineState
  removedStored : Bool

/-- `initializeLanguage`: load the English fallback catalog, validate the
stored preference (format only), otherwise detect the browser language, load
the initial catalog and commit.  `stored` models `localStorage.getItem`
(`none` for absent or a read failure). -/
def initializeLanguage (files : String → Option JsVal) (stored : Option String)
    (navLang : Option String) : InitResult :=
  let fallbackData := loadFallbackTranslations files
  let validatedSaved : Option String :=
    match stored with
    | some s => if s != "" && isTwoLower s then some s else none
    | none => none
  let removed : Bool :=
    match stored with
    | some s => !(s != "" && isTwoLower s) && s != ""
    | none => false
  let browserLanguage := detectBrowserLanguage navLang
  let initialLanguage := validatedSaved.getD browserLanguage
  let translationData := loadTranslations files (JsVal.vstr initialLanguage)
  if isCatalogShaped translationData = false then
    ⟨⟨"en", fallbackData, fallbackData⟩, removed⟩
  else
    ⟨⟨initialLanguage, translationData, fallbackData⟩, removed⟩

/-- The value exposed through the context: the current language, the locale
changer (given as its effect on provider state), and the resolver. -/
structure ContextValue where
  currentLanguage : String
  setLanguage : EngineState → JsVal → EngineState
  t : JsVal → String

/-- The fallback context value built by `useTranslation` when no provider is
present: default locale, a locale changer that only logs (no state effect),
and a resolver returning `String(key || '')`. -/
def fallbackContextValue : ContextValue where
  currentLanguage := "en"
  setLanguage := fun st _ => st
  t := fun key => coerceKey key

/-- `useTranslation`: return the context when inside a provider, otherwise
the fallback implementation. -/
def useTranslation (context : Option ContextValue) : ContextValue :=
  context.getD fallbackContextValue

/-- Modelled from the spec's words (§4.4 Resolver), for comparison with `t`:
split the key on `.`, traverse the active catalog, return a non-whitespace
string hit verbatim; otherwise, exactly when the active locale is not the
default locale, repeat the traversal on the default catalog; if both miss,
return the key unchanged. -/
def resolveSpec (activeCatalog defaultCatalog : JsVal) (activeLocale : String)
    (key : String) : String :=
  let keys := splitDot key
  match strHit (navigate activeCatalog keys) with
  | some hit => hit
  | none =>
      if activeLocale != "en" then
        match strHit (navigate defaultCatalog keys) with
        | some hit => hit
        | none => key
      else key

/-- Concrete loader: the Spanish module resolves to an array value, the
English module to a proper catalog (used to settle the array clause of the
loader claim). -/
def filesArrayEs : String → Option JsVal := fun l =>
  if l = "es" then some (JsVal.varr [JsVal.vnum 1])
  else if l = "en" then some (JsVal.vobj [("greeting", JsVal.vstr "hello")])
  else none

/-- Concrete loader serving English and Spanish catalogs and nothing else. -/
def filesEnEs : String → Option JsVal := fun l =>
  if l = "en" then some (JsVal.vobj [("hello", JsVal.vstr "Hello")])
  else if l = "es" then some (JsVal.vobj [("hello", JsVal.vstr "Hola")])
  else none

/-- Concrete loader serving only the English catalog. -/
def filesEnOnly : String → Option JsVal := fun l =>
  if l = "en" then some (JsVal.vobj [("hello", JsVal.vstr "Hello")])
  else none

/-- A concrete engine state holding the English catalog of `filesEnEs`. -/
def stateEn : EngineState :=
  ⟨"en", JsVal.vobj [("hello", JsVal.vstr "Hello")], JsVal.vobj [("hello", JsVal.vstr "Hello")]⟩

/-! ## Helper lemmas -/

theorem coerceKey_vstr (s : String) : coerceKey (JsVal.vstr s) = s := by
  by_cases h : s = "" <;>
    simp [coerceKey, jsOr, truthy, jsToString, h]

theorem truthy_of_catalogShaped {v : JsVal} (h : isCatalogShaped v = true) :
    truthy v = true := by
  unfold isCatalogShaped at h
  exact (Bool.and_eq_true _ _ |>.mp h).1

theorem loadFallbackTranslations_shaped (files : String → Option JsVal) :
    isCatalogShaped (loadFallbackTranslations files) = true := by
  unfold loadFallbackTranslations
  split
  · split
    · assumption
    · rfl
  · rfl

theorem loadTranslations_shaped (files : String → Option JsVal)
    (language : JsVal) : isCatalogShaped (loadTranslations files language) = true := by
  cases hv : isValidLangCode language <;>
    simp only [loadTranslations, hv, Bool.false_eq_true, if_true, if_false] <;>
    ( split
      · split
        · assumption
        · split
          · exact loadFallbackTranslations_shaped files
          · rfl
      · split
        · exact loadFallbackTranslations_shaped files
        · rfl )

theorem strHit_navigate_vfn (ks : List String) :
    strHit (navigate JsVal.vfn ks) = none := by
  cases ks with
  | nil => rfl
  | cons k rest => simp [navigate, truthy, isObjType, strHit]

theorem strHit_navigate_vnum (n : Int) (ks : List String) :
    strHit (navigate (JsVal.vnum n) ks) = none := by
  cases ks with
  | nil => rfl
  | cons k rest => simp [navigate, truthy, isObjType, strHit]

theorem strHit_navigate_vobj_nil (ks : List String) :
    strHit (navigate (JsVal.vobj []) ks) = none := by
  cases ks with
  | nil => rfl
  | cons k rest =>
      by_cases hc : jsIn k (JsVal.vobj []) = true
      · have hnav : navigate (JsVal.vobj []) (k :: rest)
            = navigate (jsGet k (JsVal.vobj [])) rest := by
          simp [navigate, truthy, isObjType, hc]
        have hget : jsGet k (JsVal.vobj [])
            = (if objProtoKeys.contains k then JsVal.vfn else JsVal.vnull) := rfl
        have hcont : objProtoKeys.contains k = true := by
          simpa [jsIn, List.lookup] using hc
        rw [hnav, hget, if_pos hcont]
        exact strHit_navigate_vfn rest
      · have hb : jsIn k (JsVal.vobj []) = false := Bool.eq_false_iff.mpr hc
        simp [navigate, truthy, isObjType, hb, strHit]

theorem strHit_navigate_varr_nil (ks : List String) :
    strHit (navigate (JsVal.varr []) ks) = none := by
  cases ks with
  | nil => rfl
  | cons k rest =>
      by_cases hin : jsIn k (JsVal.varr []) = true
      · have hnav : navigate (JsVal.varr []) (k :: rest)
            = navigate (jsGet k (JsVal.varr [])) rest := by
          simp [navigate, truthy, isObjType, hin]
        have hget : jsGet k (JsVal.varr [])
            = (if k == "length" then JsVal.vnum 0 else JsVal.vfn) := rfl
        rw [hnav, hget]
        by_cases hlen : (k == "length") = true
        · rw [if_pos hlen]
          exact strHit_navigate_vnum 0 rest
        · rw [if_neg (by simpa using hlen)]
          exact strHit_navigate_vfn rest
      · have hb : jsIn k (JsVal.varr []) = false := Bool.eq_false_iff.mpr hin
        simp [navigate, truthy, isObjType, hb, strHit]

/-- A fallback catalog that fails the guard of `t` (falsy, or without own
keys) can never yield a string hit: everything its traversal can reach is a
prototype function, an array length, or null. -/
theorem strHit_navigate_guard_false (d : JsVal)
    (h : (truthy d && decide (0 < (jsKeys d).length)) = false)
    (ks : List String) : strHit (navigate d ks) = none := by
  cases d with
  | vnull => cases ks <;> simp [navigate, truthy, strHit]
  | vbool b =>
      cases ks with
      | nil => rfl
      | cons k rest => simp [navigate, isObjType, strHit]
  | vnum n => exact strHit_navigate_vnum n ks
  | vfn => exact strHit_navigate_vfn ks
  | vstr s =>
      have hs : s = "" := by
        rcases Bool.and_eq_false_iff.mp h with h1 | h1
        · simpa [truthy] using h1
        · have : (jsKeys (JsVal.vstr s)).length = 0 := by
            simpa using h1
          simp only [jsKeys, List.length_map, List.length_range] at this
          cases s with
          | mk data => simp [List.length_eq_zero] at this; simp [this]
      subst hs
      cases ks with
      | nil => rfl
      | cons k rest => simp [navigate, truthy, strHit]
  | vobj fields =>
      have hf : fields = [] := by
        rcases Bool.and_eq_false_iff.mp h with h1 | h1
        · simp [truthy] at h1
        · have : (jsKeys (JsVal.vobj fields)).length = 0 := by simpa using h1
          simp only [jsKeys, List.length_map] at this
          exact List.length_eq_zero.mp this
      subst hf
      exact strHit_navigate_vobj_nil ks
  | varr xs =>
      have hx : xs = [] := by
        rcases Bool.and_eq_false_iff.mp h with h1 | h1
        · simp [truthy] at h1
        · have : (jsKeys (JsVal.varr xs)).length = 0 := by simpa using h1
          simp only [jsKeys, List.length_map, List.length_range] at this
          exact List.length_eq_zero.mp this
      subst hx
      exact strHit_navigate_varr_nil ks

/-! ## Claim theorems -/

/-- C2: for every non-empty string key and every pair of catalogs, `t`
computes exactly the resolution algorithm of the spec: split on `.`,
traverse the active catalog treating absent segments and non-mapping nodes
as misses, return a non-whitespace string hit verbatim, otherwise — exactly
when the active locale is not the default — traverse the default catalog,
and if both traversals miss return the key unchanged.  The extra guard the
source places on the fallback (`fallbackTranslations` truthy with at least
one own key) is behaviorally invisible: a catalog failing it can never
produce a string hit. -/
theorem t_matches_resolveSpec (active dflt : JsVal) (lang : String)
    (s : String) (hs : s ≠ "") :
    t active dflt lang (JsVal.vstr s) = resolveSpec active dflt lang s := by
  simp only [t, resolveSpec]
  rw [if_neg hs]
  cases h1 : strHit (navigate active (splitDot s)) with
  | some hit => simp [h1]
  | none =>
      simp only [h1]
      by_cases hl : lang = "en"
      · have : (lang != "en") = false := by simp [hl]
        simp [this]
      · have hbne : (lang != "en") = true := by simp [hl]
        by_cases hg : (truthy dflt && decide (0 < (jsKeys dflt).length)) = true
        · simp [hbne, hg]
        · have hnone := strHit_navigate_guard_false dflt
            (Bool.eq_false_iff.mpr hg) (splitDot s)
          simp [hbne, Bool.eq_false_iff.mpr hg, hnone]

/-- C2 witness: the theorem applied at a concrete catalog and key. -/
theorem t_matches_resolveSpec_witness :
    ("about.title" : String) ≠ "" ∧
    t (JsVal.vobj [("about", JsVal.vobj [("title", JsVal.vstr "Sobre mí")])])
        (JsVal.vobj [("about", JsVal.vobj [("title", JsVal.vstr "About")])])
        "es" (JsVal.vstr "about.title")
      = resolveSpec
          (JsVal.vobj [("about", JsVal.vobj [("title", JsVal.vstr "Sobre mí")])])
          (JsVal.vobj [("about", JsVal.vobj [("title", JsVal.vstr "About")])])
          "es" "about.title" :=
  ⟨by decide, t_matches_resolveSpec _ _ _ _ (by decide)⟩

/-- C1: locale and catalog commit together as one unit.  A `setLanguage`
call either leaves the state untouched or commits, in one update, the
requested code as `currentLanguage` together with exactly the catalog the
loader obtained for that code; initialization likewise commits a locale
together with the catalog loaded for that very locale. -/
theorem locale_catalog_committed_together
    (files : String → Option JsVal) (storageOk : Bool) (st : EngineState)
    (language : JsVal) :
    ((setLanguage files storageOk st language).1 = st ∨
      ∃ s, language = JsVal.vstr s ∧
        (setLanguage files storageOk st language).1 =
          { st with currentLanguage := s,
                    translations := loadTranslations files language }) ∧
    ∀ stored navLang, ∃ c,
      (initializeLanguage files stored navLang).state.currentLanguage = c ∧
      (initializeLanguage files stored navLang).state.translations =
        loadTranslations files (JsVal.vstr c) := by
  constructor
  · by_cases hv : isValidLangCode language = false
    · left
      simp [setLanguage, hv]
    · have hv' : isValidLangCode language = true := by
        cases hvv : isValidLangCode language
        · exact absurd hvv hv
        · rfl
      cases language with
      | vstr s =>
          by_cases hg : (truthy (loadTranslations files (JsVal.vstr s)) &&
              decide (0 < (jsKeys (loadTranslations files (JsVal.vstr s))).length))
                = true
          · right
            exact ⟨s, rfl, by simp [setLanguage, hv, hg, langStr]⟩
          · left
            simp [setLanguage, hv, Bool.eq_false_iff.mpr hg]
      | vnull => simp [isValidLangCode] at hv'
      | vbool b => simp [isValidLangCode] at hv'
      | vnum n => simp [isValidLangCode] at hv'
      | vfn => simp [isValidLangCode] at hv'
      | vobj fields => simp [isValidLangCode] at hv'
      | varr elems => simp [isValidLangCode] at hv'
  · intro stored navLang
    simp only [initializeLanguage, loadTranslations_shaped]
    exact ⟨_, rfl, rfl⟩

/-- C9: without a provider, `useTranslation` returns the fallback context:
the default locale, a resolver that is the identity on string keys, and a
locale changer with no state effect. -/
theorem useTranslation_fallback_safe :
    (useTranslation none).currentLanguage = "en" ∧
    (∀ s : String, (useTranslation none).t (JsVal.vstr s) = s) ∧
    (∀ st language, (useTranslation none).setLanguage st language = st) :=
  ⟨rfl, fun s => coerceKey_vstr s, fun _ _ => rfl⟩

/-- C3 counterexample: `t` applied to the null key returns `""`, not the
claimed `"null"`, and ignores a catalog entry under the key `"null"` that a
lookup of the coerced value would have found. -/
theorem t_null_key_counterexample :
    t (JsVal.vobj [("null", JsVal.vstr "hello")]) (JsVal.vobj []) "en"
        JsVal.vnull = "" ∧
    ("" : String) ≠ "null" ∧ ("" : String) ≠ "hello" :=
  ⟨rfl, by decide, by decide⟩

/-- C3 amended: an input that is not a truthy string is returned directly as
`String(key || '')` — `""` for every falsy input (null, 0, false, the empty
string) and the string representation of a truthy non-string (numbers to
their decimal text) — without running the lookup; the call is total. -/
theorem t_invalid_key_coerced (tr fb : JsVal) (lang : String) (key : JsVal)
    (h : (truthy key && isStr key) = false) :
    t tr fb lang key = coerceKey key ∧
    coerceKey JsVal.vnull = "" ∧
    (∀ n : Int, coerceKey (JsVal.vnum n) = if n = 0 then "" else toString n) := by
  refine ⟨?_, rfl, ?_⟩
  · cases key with
    | vstr s =>
        have hs : s = "" := by simpa [truthy, isStr] using h
        subst hs
        simp [t]
    | vnull => rfl
    | vbool b => rfl
    | vnum n => rfl
    | vfn => rfl
    | vobj fields => rfl
    | varr elems => rfl
  · intro n
    by_cases hn : n = 0
    · subst hn; rfl
    · have ht : truthy (JsVal.vnum n) = true := by simp [truthy, hn]
      simp [coerceKey, jsOr, ht, jsToString, hn]

/-- C3 witness: the amended theorem applied at the null key. -/
theorem t_invalid_key_coerced_witness :
    t (JsVal.vobj []) (JsVal.vobj []) "en" JsVal.vnull = coerceKey JsVal.vnull :=
  (t_invalid_key_coerced (JsVal.vobj []) (JsVal.vobj []) "en" JsVal.vnull
    (by decide)).1

/-- C10: whatever the shape of the two catalogs, the value `t` returns is
either a non-whitespace string leaf that the segment-wise traversal reached
in the active or in the default catalog, or the (stringified) key itself —
never a number, object, array, or a prototype-chain member that the `in`
based traversal can reach; in particular the key `"toString"` against empty
catalogs resolves to the raw key, not to the inherited function. -/
theorem t_returns_string_provenance :
    (∀ tr fb : JsVal, ∀ lang : String, ∀ key : JsVal,
      (∃ s, key = JsVal.vstr s ∧
         strHit (navigate tr (splitDot s)) = some (t tr fb lang key)) ∨
      (∃ s, key = JsVal.vstr s ∧
         strHit (navigate fb (splitDot s)) = some (t tr fb lang key)) ∨
      t tr fb lang key = coerceKey key) ∧
    t (JsVal.vobj []) (JsVal.vobj []) "en" (JsVal.vstr "toString") = "toString" := by
  constructor
  · intro tr fb lang key
    cases key with
    | vstr s =>
        by_cases hs : s = ""
        · subst hs
          right; right; simp [t]
        · have hts : t tr fb lang (JsVal.vstr s) =
              (match strHit (navigate tr (splitDot s)) with
               | some hit => hit
               | none =>
                   if lang != "en" && truthy fb &&
                       decide (0 < (jsKeys fb).length) then
                     match strHit (navigate fb (splitDot s)) with
                     | some hit => hit
                     | none => s
                   else s) := by
            simp [t, hs]
          cases h1 : strHit (navigate tr (splitDot s)) with
          | some hit =>
              left
              refine ⟨s, rfl, ?_⟩
              rw [hts, h1]
          | none =>
              by_cases hg : (lang != "en" && truthy fb &&
                  decide (0 < (jsKeys fb).length)) = true
              · cases h2 : strHit (navigate fb (splitDot s)) with
                | some hit =>
                    right; left
                    refine ⟨s, rfl, ?_⟩
                    rw [hts, h1]
                    simp [hg, h2]
                | none =>
                    right; right
                    rw [hts, h1]
                    simp [hg, h2, coerceKey_vstr]
              · right; right
                rw [hts, h1]
                simp [Bool.eq_false_iff.mpr hg, coerceKey_vstr]
    | vnull => right; right; rfl
    | vbool b => right; right; rfl
    | vnum n => right; right; rfl
    | vfn => right; right; rfl
    | vobj fields => right; right; rfl
    | varr elems => right; right; rfl
  · decide

/-- C4 counterexample: an array module value for a non-default locale passes
the loader's shape check and is returned as-is, instead of being treated as
malformed and replaced by the default locale's catalog as the claim states. -/
theorem loadTranslations_array_counterexample :
    loadTranslations filesArrayEs (JsVal.vstr "es") = JsVal.varr [JsVal.vnum 1] ∧
    loadFallbackTranslations filesArrayEs
      = JsVal.vobj [("greeting", JsVal.vstr "hello")] ∧
    JsVal.varr [JsVal.vnum 1] ≠ JsVal.vobj [("greeting", JsVal.vstr "hello")] :=
  ⟨rfl, rfl, fun h => JsVal.noConfusion h⟩

/-- C4 amended: the loader is total and always yields an object- or
array-shaped value; a code failing the format check is coerced to the
default code before loading; a load failure or a malformed result — null or
a non-object, arrays passing the check and being returned as-is — for a
non-default locale is recovered by loading the default locale's catalog;
a well-shaped module value is returned unchanged. -/
theorem loadTranslations_failure_characterization
    (files : String → Option JsVal) (language : JsVal) :
    isCatalogShaped (loadTranslations files language) = true ∧
    (isValidLangCode language = false →
      loadTranslations files language = loadTranslations files (JsVal.vstr "en")) ∧
    (∀ s v, language = JsVal.vstr s → isValidLangCode language = true →
      files s = some v → isCatalogShaped v = true →
      loadTranslations files language = v) ∧
    (∀ s, language = JsVal.vstr s → s ≠ "en" → isValidLangCode language = true →
      (files s = none ∨ ∃ v, files s = some v ∧ isCatalogShaped v = false) →
      loadTranslations files language = loadFallbackTranslations files) := by
  refine ⟨loadTranslations_shaped files language, ?_, ?_, ?_⟩
  · intro hv
    have he : isValidLangCode (JsVal.vstr "en") = true := by decide
    simp [loadTranslations, hv, he, langStr]
  · intro s v hlang hv hf hshape
    subst hlang
    simp [loadTranslations, hv, langStr, hf, hshape]
  · intro s hlang hne hv hfail
    subst hlang
    have hbne : (s != "en") = true := by simpa using hne
    rcases hfail with hf | ⟨v, hf, hvv⟩
    · simp [loadTranslations, hv, langStr, hf, hbne]
    · simp [loadTranslations, hv, langStr, hf, hvv, hbne]

/-- C4 witness: the amended theorem applied to a loader with no Spanish
module: the Spanish request resolves to the English fallback catalog. -/
theorem loadTranslations_failure_characterization_witness :
    loadTranslations filesEnOnly (JsVal.vstr "es")
      = loadFallbackTranslations filesEnOnly :=
  (loadTranslations_failure_characterization filesEnOnly (JsVal.vstr "es")).2.2.2
    "es" rfl (by decide) (by decide) (Or.inl rfl)

/-- C5 counterexample: a stored preference `"fr"` passes the format check and
wins although it is not in the supported set, so with environment signal
`"es-ES"` the initial locale is `fr`, not the `es` the claim requires; nor is
the unsupported stored value erased. -/
theorem initializeLanguage_membership_counterexample :
    (initializeLanguage filesEnEs (some "fr") (some "es-ES")).state.currentLanguage
      = "fr" ∧
    ("fr" : String) ≠ "es" ∧
    (initializeLanguage filesEnEs (some "fr") (some "es-ES")).removedStored
      = false :=
  ⟨by decide, by decide, by decide⟩

/-- C5 amended: first match wins among (1) the stored preference when it
passes the format check alone — membership in the supported set is not
checked; (2) the environment-signal detection (always yielding a supported
locale, `es` or `en`); (3) the default `en`.  Only a truthy format-invalid
stored value is erased.  Stored `"en"` with signal `"es-ES"` yields `en`. -/
theorem initializeLanguage_precedence
    (files : String → Option JsVal) (stored navLang : Option String) :
    (∀ s, stored = some s → (s != "" && isTwoLower s) = true →
      (initializeLanguage files stored navLang).state.currentLanguage = s) ∧
    ((stored = none ∨ ∃ s, stored = some s ∧ (s != "" && isTwoLower s) = false) →
      (initializeLanguage files stored navLang).state.currentLanguage
        = detectBrowserLanguage navLang) ∧
    (detectBrowserLanguage navLang = "es" ∨ detectBrowserLanguage navLang = "en") ∧
    (∀ s, stored = some s → isTwoLower s = true →
      (initializeLanguage files stored navLang).removedStored = false) ∧
    (∀ s, stored = some s → s ≠ "" → isTwoLower s = false →
      (initializeLanguage files stored navLang).removedStored = true) ∧
    (initializeLanguage files (some "en") (some "es-ES")).state.currentLanguage
      = "en" := by
  refine ⟨?_, ?_, ?_, ?_, ?_, ?_⟩
  · intro s hst hvalid
    simp [initializeLanguage, loadTranslations_shaped, hst, hvalid]
  · intro hdisc
    rcases hdisc with hst | ⟨s, hst, hinv⟩
    · simp [initializeLanguage, loadTranslations_shaped, hst]
    · simp [initializeLanguage, loadTranslations_shaped, hst, hinv]
  · cases navLang with
    | none => right; rfl
    | some l =>
        by_cases hc : (l != "" && strStartsWith (jsToLower l) "es") = true
        · left; simp [detectBrowserLanguage, hc]
        · right; simp [detectBrowserLanguage, Bool.eq_false_iff.mpr hc]
  · intro s hst htl
    have hne : s ≠ "" := by
      intro he
      subst he
      exact absurd htl (by decide)
    have hbne : (s != "") = true := by simpa using hne
    simp [initializeLanguage, loadTranslations_shaped, hst, htl, hbne]
  · intro s hst hne htl
    have hbne : (s != "") = true := by simpa using hne
    simp [initializeLanguage, loadTranslations_shaped, hst, htl, hbne]
  · have h1 : (("en" : String) != "" && isTwoLower "en") = true := by decide
    have h2 : isTwoLower "en" = true := by decide
    simp [initializeLanguage, loadTranslations_shaped, h1, h2]

/-- C5 witness: the amended precedence applied at stored `"en"` and signal
`"es-ES"`: the stored preference wins. -/
theorem initializeLanguage_precedence_witness :
    (initializeLanguage filesEnEs (some "en") (some "es-ES")).state.currentLanguage
      = "en" :=
  (initializeLanguage_precedence filesEnEs (some "en") (some "es-ES")).1
    "en" rfl (by decide)

/-- C6: `setLanguage` is total and all-or-nothing: a format-invalid code
leaves the state unchanged; a loaded catalog with no own keys leaves the
state unchanged; in every case the state is either untouched or holds the
requested code together with its non-empty loaded catalog. -/
theorem setLanguage_all_or_nothing
    (files : String → Option JsVal) (storageOk : Bool) (st : EngineState)
    (language : JsVal) :
    (isValidLangCode language = false →
      (setLanguage files storageOk st language).1 = st) ∧
    ((jsKeys (loadTranslations files language)).length = 0 →
      (setLanguage files storageOk st language).1 = st) ∧
    ((setLanguage files storageOk st language).1 = st ∨
      (isValidLangCode language = true ∧
       0 < (jsKeys (loadTranslations files language)).length ∧
       (setLanguage files storageOk st language).1 =
         { st with currentLanguage := langStr language,
                   translations := loadTranslations files language })) := by
  refine ⟨?_, ?_, ?_⟩
  · intro hv
    simp [setLanguage, hv]
  · intro hk
    by_cases hv : isValidLangCode language = false
    · simp [setLanguage, hv]
    · have hg : (truthy (loadTranslations files language) &&
          decide (0 < (jsKeys (loadTranslations files language)).length)) = false := by
        simp [hk]
      simp [setLanguage, hv, hg]
  · by_cases hv : isValidLangCode language = false
    · left
      simp [setLanguage, hv]
    · have hv' : isValidLangCode language = true := by
        cases hvv : isValidLangCode language
        · exact absurd hvv hv
        · rfl
      by_cases hg : (truthy (loadTranslations files language) &&
          decide (0 < (jsKeys (loadTranslations files language)).length)) = true
      · right
        refine ⟨hv', ?_, ?_⟩
        · have hlen := ((Bool.and_eq_true _ _).mp hg).2
          simpa using hlen
        · simp [setLanguage, hv, hg]
      · left
        simp [setLanguage, hv, Bool.eq_false_iff.mpr hg]

/-- C6 witness: the theorem applied at the format-invalid code `"ES"`. -/
theorem setLanguage_all_or_nothing_witness :
    (setLanguage filesEnEs true stateEn (JsVal.vstr "ES")).1 = stateEn :=
  (setLanguage_all_or_nothing filesEnEs true stateEn (JsVal.vstr "ES")).1 (by decide)

/-- C7: persistence is advisory: the committed state does not depend on
whether the storage write succeeds, and on every successful commit the write
is invoked with the newly committed code while the state holds the new
locale and catalog. -/
theorem setLanguage_persistence_advisory
    (files : String → Option JsVal) (storageOk storageOk' : Bool)
    (st : EngineState) (language : JsVal) :
    (setLanguage files storageOk st language).1
      = (setLanguage files storageOk' st language).1 ∧
    (isValidLangCode language = true →
     (truthy (loadTranslations files language) &&
        decide (0 < (jsKeys (loadTranslations files language)).length)) = true →
     (setLanguage files storageOk st language).2 = some (langStr language) ∧
     (setLanguage files storageOk st language).1.currentLanguage
       = langStr language ∧
     (setLanguage files storageOk st language).1.translations
       = loadTranslations files language) := by
  constructor
  · by_cases hv : isValidLangCode language = false
    · simp [setLanguage, hv]
    · by_cases hg : (truthy (loadTranslations files language) &&
          decide (0 < (jsKeys (loadTranslations files language)).length)) = true
      · simp [setLanguage, hv, hg]
      · simp [setLanguage, hv, Bool.eq_false_iff.mpr hg]
  · intro hv hg
    have hv0 : ¬ (isValidLangCode language = false) := by simp [hv]
    refine ⟨?_, ?_, ?_⟩ <;> simp [setLanguage, hv0, hg]

/-- C7 witness: with a failing storage write, `setLanguage "es"` still
commits the new locale, and the write was invoked with `"es"`. -/
theorem setLanguage_persistence_advisory_witness :
    (setLanguage filesEnEs false stateEn (JsVal.vstr "es")).2 = some "es" ∧
    (setLanguage filesEnEs false stateEn (JsVal.vstr "es")).1.currentLanguage
      = "es" :=
  ⟨((setLanguage_persistence_advisory filesEnEs false false stateEn
        (JsVal.vstr "es")).2 (by decide) (by decide)).1,
   ((setLanguage_persistence_advisory filesEnEs false false stateEn
        (JsVal.vstr "es")).2 (by decide) (by decide)).2.1⟩

/-- C8: `setLanguage` is idempotent — repeating a call with the same code
against the same loader leaves the state exactly where the first call put
it — and round-trips: from a state holding the loader's English catalog,
switching to `es` and back to `en` restores the original state, provided
both catalogs load non-empty. -/
theorem setLanguage_idempotent_roundtrip
    (files : String → Option JsVal) (storageOk : Bool) (st : EngineState)
    (code : JsVal) :
    ((setLanguage files storageOk
        (setLanguage files storageOk st code).1 code).1
      = (setLanguage files storageOk st code).1) ∧
    (st.currentLanguage = "en" →
     st.translations = loadTranslations files (JsVal.vstr "en") →
     0 < (jsKeys (loadTranslations files (JsVal.vstr "es"))).length →
     0 < (jsKeys (loadTranslations files (JsVal.vstr "en"))).length →
     (setLanguage files storageOk
        (setLanguage files storageOk st (JsVal.vstr "es")).1 (JsVal.vstr "en")).1
       = st) := by
  constructor
  · by_cases hv : isValidLangCode code = false
    · simp [setLanguage, hv]
    · by_cases hg : (truthy (loadTranslations files code) &&
          decide (0 < (jsKeys (loadTranslations files code)).length)) = true
      · simp [setLanguage, hv, hg]
      · simp [setLanguage, hv, Bool.eq_false_iff.mpr hg]
  · obtain ⟨cl, tr, fb⟩ := st
    intro h1 h2 hes hen
    replace h1 : cl = "en" := h1
    replace h2 : tr = loadTranslations files (JsVal.vstr "en") := h2
    subst h1
    subst h2
    have hves : ¬ (isValidLangCode (JsVal.vstr "es") = false) := by decide
    have hven : ¬ (isValidLangCode (JsVal.vstr "en") = false) := by decide
    have htes : truthy (loadTranslations files (JsVal.vstr "es")) = true :=
      truthy_of_catalogShaped (loadTranslations_shaped files _)
    have hten : truthy (loadTranslations files (JsVal.vstr "en")) = true :=
      truthy_of_catalogShaped (loadTranslations_shaped files _)
    have hges : (truthy (loadTranslations files (JsVal.vstr "es")) &&
        decide (0 < (jsKeys (loadTranslations files (JsVal.vstr "es"))).length))
          = true := by simp [htes, hes]
    have hgen : (truthy (loadTranslations files (JsVal.vstr "en")) &&
        decide (0 < (jsKeys (loadTranslations files (JsVal.vstr "en"))).length))
          = true := by simp [hten, hen]
    simp [setLanguage, hves, hven, hges, hgen, langStr]

/-- C8 witness: the round-trip applied to the concrete two-locale loader. -/
theorem setLanguage_idempotent_roundtrip_witness :
    (setLanguage filesEnEs true
        (setLanguage filesEnEs true stateEn (JsVal.vstr "es")).1
        (JsVal.vstr "en")).1
      = stateEn :=
  (setLanguage_idempotent_roundtrip filesEnEs true stateEn (JsVal.vstr "es")).2
    (by decide) rfl (by decide) (by decide)
